import Mathlib

/-!
Verification model of the chat subsystem of the `socila-react-native`
backend.  The embedded code is the chat route module (two variants are
present in the repository; where they differ both are modelled, as
`sendMessage1` for the variant without the explicit content check and
`sendMessage2` for the variant with it).  Users, chats and messages are
modelled with `Nat` identifiers; MongoDB single-document updates
(`updateOne` with `$inc`/`$set`/`$addToSet` and `updateMany`) are modelled
as pure functions over the persisted state, each such update being one
atomic step.
-/

namespace Socila

abbrev UserId := Nat
abbrev ChatId := Nat
abbrev MessageId := Nat

/-- One element of the chat's `unreadCounts` array: `{ user, count }`. -/
structure UnreadEntry where
  user : UserId
  count : Nat
deriving DecidableEq, Repr

/-- A persisted chat document.  The Chat model file itself is not under
`src/`; the shape (`participants`, `lastMessage`, `unreadCounts` as an
array of user/count pairs, timestamps) is taken from its uses in the chat
routes and from the spec's persisted shape
`Conversation(id, participants, lastMessageRef, unreadCounts, createdAt, updatedAt)`. -/
structure Chat where
  id : ChatId
  participants : List UserId
  lastMessage : Option MessageId
  unreadCounts : List UnreadEntry
  createdAt : Nat
  updatedAt : Nat
deriving DecidableEq, Repr

/-- Message kinds, the `type` field: `'text' | 'image' | 'video'`. -/
inductive MessageType where
  | text
  | image
  | video
deriving DecidableEq, Repr

/-- A persisted message document, shape taken from the route code
(`chat`, `sender`, `type`, `content`, `mediaUrl`, `readBy`) and the spec's
`Message(id, conversationRef, senderRef, kind, content?, mediaRef?, readBy, createdAt)`. -/
structure Message where
  id : MessageId
  chat : ChatId
  sender : UserId
  type : MessageType
  content : Option String
  mediaUrl : Option String
  readBy : List UserId
  createdAt : Nat
deriving DecidableEq, Repr

/-- A registered user, as far as chat search needs it. -/
structure User where
  id : UserId
  username : String
  email : String
deriving DecidableEq, Repr

/-- The persisted state: the chat and message collections plus an id
supply for `Message.create`. -/
structure DB where
  chats : List Chat
  messages : List Message
  nextMessageId : MessageId
deriving DecidableEq, Repr

/-- `Chat.findById(id)`. -/
def findChat (db : DB) (chatId : ChatId) : Option Chat :=
  db.chats.find? (fun c => c.id == chatId)

/-- The uploaded file as the handler sees it (`req.file`). -/
structure UploadedFile where
  mimetype : String
  filename : String
deriving DecidableEq, Repr

/-- The `messageData` object both send handlers build: `type` is `image`
or `video` from the file's mimetype when a file is uploaded and `text`
otherwise; `readBy` starts as `[sender]`; `mediaUrl` is set exactly when a
file is uploaded, and `content` is copied from the request body only when
no file is uploaded. -/
structure MessageData where
  chat : ChatId
  sender : UserId
  type : MessageType
  readBy : List UserId
  mediaUrl : Option String
  content : Option String
deriving DecidableEq, Repr

/-- JS `String.prototype.startsWith`, over the character list so that it
evaluates inside the kernel. -/
def strStartsWith (s pre : String) : Bool :=
  pre.toList.isPrefixOf s.toList

def buildMessageData (chatId : ChatId) (sender : UserId)
    (file : Option UploadedFile) (content : Option String) : MessageData :=
  { chat := chatId
    sender := sender
    type :=
      match file with
      | some f => if strStartsWith f.mimetype "image/" then .image else .video
      | none => .text
    readBy := [sender]
    mediaUrl := file.map (fun f => "/uploads/" ++ f.filename)
    content :=
      match file with
      | some _ => none
      | none => content }

/-- Modelled from the spec: the Message model file (`models/Message.js`)
is not under `src/`, so the schema validation run by `Message.create` is
taken from the spec's payload rule — text content is required iff the
kind is `text`, and a media reference is required iff the kind is `image`
or `video`.  A Mongoose required `String` path treats the empty string as
missing, hence the nonemptiness test. -/
def messageValidates (d : MessageData) : Bool :=
  match d.type with
  | .text =>
    match d.content with
    | some s => s != ""
    | none => false
  | .image => d.mediaUrl.isSome
  | .video => d.mediaUrl.isSome

/-- `Message.create(messageData)`: validates, assigns a fresh id and the
creation time, and appends the document to the message collection.
Returns `none` when schema validation throws. -/
def messageCreate (db : DB) (d : MessageData) (now : Nat) :
    Option (Message × DB) :=
  if messageValidates d then
    let m : Message :=
      { id := db.nextMessageId
        chat := d.chat
        sender := d.sender
        type := d.type
        content := d.content
        mediaUrl := d.mediaUrl
        readBy := d.readBy
        createdAt := now }
    some (m, { db with
                messages := db.messages ++ [m]
                nextMessageId := db.nextMessageId + 1 })
  else none

/-- The `$inc` payload of the send handlers' `Chat.updateOne` with
`arrayFilters: [ elem.user ne sender ]`: every `unreadCounts` element
whose `user` differs from `excludeUser` has its `count` incremented by 1. -/
def bumpCounts (excludeUser : UserId) (l : List UnreadEntry) : List UnreadEntry :=
  l.map (fun e => if e.user == excludeUser then e else { e with count := e.count + 1 })

/-- The whole `Chat.updateOne` of the send handlers, one atomic document
update: on the chat with the given id, set `lastMessage`, refresh
`updatedAt` and `$inc` the unread counters of everyone but the sender. -/
def incUnreadAndSetLast (chatId : ChatId) (sender : UserId) (mid : MessageId)
    (now : Nat) (c : Chat) : Chat :=
  if c.id == chatId then
    { c with
        lastMessage := some mid
        updatedAt := now
        unreadCounts := bumpCounts sender c.unreadCounts }
  else c

/-- The per-document update of the history handlers' `Message.updateMany`:
a message of this chat whose sender is not the reader and whose `readBy`
does not yet contain the reader gets the reader `$addToSet`-appended. -/
def markReadUpdate (chatId : ChatId) (reader : UserId) (m : Message) : Message :=
  if m.chat = chatId ∧ m.sender ≠ reader ∧ reader ∉ m.readBy then
    { m with readBy := m.readBy ++ [reader] }
  else m

/-- `Message.updateMany` applied across the collection. -/
def markReadByOthers (chatId : ChatId) (reader : UserId)
    (msgs : List Message) : List Message :=
  msgs.map (markReadUpdate chatId reader)

/-- The positional `$set` of `unreadCounts.$.count` to 0: only the first
array element whose `user` matches is reset. -/
def resetFirstCount (user : UserId) : List UnreadEntry → List UnreadEntry
  | [] => []
  | e :: es =>
    if e.user == user then { e with count := 0 } :: es
    else e :: resetFirstCount user es

/-- The history handlers' `Chat.updateOne`: the filter requires the
document id and an `unreadCounts` element for the user to match, and the
positional update zeroes that element's count. -/
def resetUnreadUpdate (chatId : ChatId) (user : UserId) (c : Chat) : Chat :=
  if c.id = chatId ∧ (c.unreadCounts.any (fun e => e.user == user)) = true then
    { c with unreadCounts := resetFirstCount user c.unreadCounts }
  else c

/-- The `unreadCount` the list endpoint computes:
`unreadInfo ? unreadInfo.count : 0`. -/
def countFor (user : UserId) (l : List UnreadEntry) : Nat :=
  match l.find? (fun e => e.user == user) with
  | some e => e.count
  | none => 0

inductive GetResult where
  | notFound
  | forbidden
  | ok (msgs : List Message)
deriving DecidableEq, Repr

/-- `GET /:id/messages` (identical logic in both route variants): 404 when
the chat does not exist, 403 when the caller is not a participant;
otherwise return the chat's messages sorted by `createdAt` descending
capped at 50, then mark them read for the caller and zero the caller's
unread counter. -/
def getMessages (db : DB) (user : UserId) (chatId : ChatId) :
    GetResult × DB :=
  match findChat db chatId with
  | none => (.notFound, db)
  | some chat =>
    if user ∈ chat.participants then
      let msgs :=
        ((db.messages.filter (fun m => m.chat == chatId)).insertionSort
          (fun a b => b.createdAt ≤ a.createdAt)).take 50
      (.ok msgs,
        { db with
            messages := markReadByOthers chatId user db.messages
            chats := db.chats.map (resetUnreadUpdate chatId user) })
    else (.forbidden, db)

inductive SendResult where
  | notFound
  | forbidden
  /-- The explicit 400 "Message content is required" of variant 2. -/
  | contentRequired
  /-- An exception reached the handler's catch: the response is an error
  status (500, or 400 for a ValidationError under variant 2's
  `handleError`). -/
  | error
  | created (m : Message)
deriving DecidableEq, Repr

/-- `POST /:id/messages`, first variant: no explicit content check; the
socket emit `req.app.get('io').to(id).emit(...)` is unguarded, so an
absent io handle (modelled by `ioOpt = none`) or a throwing emit
(`ioOpt = some false`) raises inside the try block after the database
writes have completed, and the catch answers with an error status. -/
def sendMessage1 (db : DB) (user : UserId) (chatId : ChatId)
    (file : Option UploadedFile) (content : Option String)
    (ioOpt : Option Bool) (now : Nat) : SendResult × DB :=
  match findChat db chatId with
  | none => (.notFound, db)
  | some chat =>
    if user ∈ chat.participants then
      match messageCreate db (buildMessageData chatId user file content) now with
      | none => (.error, db)
      | some (m, db1) =>
        let db2 := { db1 with
          chats := db1.chats.map (incUnreadAndSetLast chatId user m.id now) }
        match ioOpt with
        | none => (.error, db2)
        | some emitOk => if emitOk then (.created m, db2) else (.error, db2)
    else (.forbidden, db)

/-- `POST /:id/messages`, second variant: when no file is uploaded a
missing (or empty, by JS truthiness) `content` is rejected with 400
before anything is written; the emit is guarded by `if (io)`, so an
absent io handle skips the publish, while a throwing emit still raises
into the catch. -/
def sendMessage2 (db : DB) (user : UserId) (chatId : ChatId)
    (file : Option UploadedFile) (content : Option String)
    (ioOpt : Option Bool) (now : Nat) : SendResult × DB :=
  match findChat db chatId with
  | none => (.notFound, db)
  | some chat =>
    if user ∈ chat.participants then
      if file = none ∧ (content = none ∨ content = some "") then
        (.contentRequired, db)
      else
        match messageCreate db (buildMessageData chatId user file content) now with
        | none => (.error, db)
        | some (m, db1) =>
          let db2 := { db1 with
            chats := db1.chats.map (incUnreadAndSetLast chatId user m.id now) }
          match ioOpt with
          | none => (.created m, db2)
          | some emitOk => if emitOk then (.created m, db2) else (.error, db2)
    else (.forbidden, db)

/-- An item of the chat-list response: the chat plus the caller's
unread count. -/
structure ChatListItem where
  chat : Chat
  unreadCount : Nat
deriving DecidableEq, Repr

/-- `GET /` (identical logic in both route variants): the caller's chats
sorted by `updatedAt` descending, each decorated with the caller's unread
count, defaulting to 0 when the caller has no `unreadCounts` entry. -/
def listChats (db : DB) (user : UserId) : List ChatListItem :=
  ((db.chats.filter (fun c => user ∈ c.participants)).insertionSort
      (fun a b => b.updatedAt ≤ a.updatedAt)).map
    (fun c => { chat := c, unreadCount := countFor user c.unreadCounts })

/-- Lower-cased character list of a string. -/
def lowerChars (s : String) : List Char :=
  s.toList.map Char.toLower

/-- Case-insensitive substring test, modelling `new RegExp(query, 'i')`
applied to a field for queries without regex metacharacters. -/
def ciContains (hay q : String) : Bool :=
  let h := lowerChars hay
  let n := lowerChars q
  (List.range (h.length + 1)).any (fun i => n.isPrefixOf (h.drop i))

/-- The populate `match`: the user document matches when its username or
email matches the query case-insensitively. -/
def userMatches (q : String) (u : User) : Bool :=
  ciContains u.username q || ciContains u.email q

/-- After populate, a participant reference is non-null exactly when it
resolves to a user document that matches the query. -/
def participantMatched (users : List User) (q : String) (p : UserId) : Bool :=
  match users.find? (fun u => u.id == p) with
  | some u => userMatches q u
  | none => false

/-- `GET /search` (identical logic in both route variants): the caller's
chats, populate-matching every participant reference against the query
and keeping the chats where `participants.some(p => p !== null)`. -/
def searchChats (db : DB) (users : List User) (user : UserId) (q : String) :
    List Chat :=
  ((db.chats.filter (fun c => user ∈ c.participants)).insertionSort
      (fun a b => b.updatedAt ≤ a.updatedAt)).filter
    (fun c => c.participants.any (participantMatched users q))

/-- The search operation as the spec words it, for comparison with
`searchChats`: a chat is kept only when at least one participant *other
than the requesting user* matches the query. -/
def searchChatsSpec (db : DB) (users : List User) (user : UserId) (q : String) :
    List Chat :=
  ((db.chats.filter (fun c => user ∈ c.participants)).insertionSort
      (fun a b => b.updatedAt ≤ a.updatedAt)).filter
    (fun c => c.participants.any (fun p => p != user && participantMatched users q p))

/-! ### Helper lemmas -/

lemma find?_map_comm {α : Type} (f : α → α) (p : α → Bool)
    (hf : ∀ a, p (f a) = p a) (l : List α) :
    (l.map f).find? p = (l.find? p).map f := by
  induction l with
  | nil => rfl
  | cons a l ih =>
    simp only [List.map_cons, List.find?, hf]
    cases h : p a <;> simp [h, ih]

lemma countFor_cons (p : UserId) (e : UnreadEntry) (l : List UnreadEntry) :
    countFor p (e :: l) = if (e.user == p) = true then e.count else countFor p l := by
  unfold countFor
  cases h : (e.user == p) <;> simp [List.find?, h]

lemma any_map_comm {α : Type} (f : α → α) (p : α → Bool)
    (hf : ∀ a, p (f a) = p a) (l : List α) :
    (l.map f).any p = l.any p := by
  induction l with
  | nil => rfl
  | cons a l ih => simp [List.any_cons, hf, ih]

lemma bumpCounts_user_inv (s p : UserId) (e : UnreadEntry) :
    ((if e.user == s then e else { e with count := e.count + 1 }).user == p)
      = (e.user == p) := by
  split <;> rfl

lemma countFor_bumpCounts_self (s : UserId) (l : List UnreadEntry) :
    countFor s (bumpCounts s l) = countFor s l := by
  induction l with
  | nil => rfl
  | cons e l ih =>
    simp only [bumpCounts, List.map_cons] at ih ⊢
    cases h : (e.user == s) with
    | true => simp [countFor_cons, h]
    | false =>
      simp [countFor_cons, h]
      simpa using ih

lemma countFor_bumpCounts_ne (s p : UserId) (l : List UnreadEntry)
    (hps : p ≠ s) (hany : (l.any (fun e => e.user == p)) = true) :
    countFor p (bumpCounts s l) = countFor p l + 1 := by
  induction l with
  | nil => simp at hany
  | cons e l ih =>
    simp only [bumpCounts, List.map_cons] at ih ⊢
    cases h : (e.user == p) with
    | true =>
      have he : e.user = p := by simpa using h
      have hs : (e.user == s) = false := by
        simp only [he, beq_eq_false_iff_ne, ne_eq]
        exact hps
      simp [countFor_cons, h, hs]
    | false =>
      have hany' : (l.any (fun e => e.user == p)) = true := by
        simpa [List.any_cons, h] using hany
      cases hs : (e.user == s) with
      | true =>
        simp [countFor_cons, h, hs]
        simpa using ih hany'
      | false =>
        simp [countFor_cons, h, hs]
        simpa using ih hany'

lemma bumpCounts_any (s p : UserId) (l : List UnreadEntry) :
    ((bumpCounts s l).any (fun e => e.user == p)) = (l.any (fun e => e.user == p)) :=
  any_map_comm _ _ (bumpCounts_user_inv s p) l

lemma countFor_resetFirstCount_self (u : UserId) (l : List UnreadEntry) :
    countFor u (resetFirstCount u l) = 0 := by
  induction l with
  | nil => rfl
  | cons e l ih =>
    cases h : (e.user == u) with
    | true => simp [resetFirstCount, h, countFor_cons]
    | false => simp [resetFirstCount, h, countFor_cons, ih]

lemma countFor_resetFirstCount_ne (u p : UserId) (l : List UnreadEntry)
    (hpu : p ≠ u) :
    countFor p (resetFirstCount u l) = countFor p l := by
  induction l with
  | nil => rfl
  | cons e l ih =>
    cases h : (e.user == u) with
    | true =>
      have he : e.user = u := by simpa using h
      have hp : (e.user == p) = false := by
        simp only [he, beq_eq_false_iff_ne, ne_eq]
        exact fun hc => hpu hc.symm
      simp [resetFirstCount, h, countFor_cons, hp]
    | false =>
      cases hp : (e.user == p) with
      | true => simp [resetFirstCount, h, countFor_cons, hp]
      | false => simp [resetFirstCount, h, countFor_cons, hp, ih]

lemma incUnreadAndSetLast_id (chatId : ChatId) (s : UserId) (mid : MessageId)
    (now : Nat) (c : Chat) :
    ((incUnreadAndSetLast chatId s mid now c).id == chatId) = (c.id == chatId) := by
  unfold incUnreadAndSetLast
  split <;> rfl

lemma resetUnreadUpdate_id (chatId : ChatId) (u : UserId) (c : Chat) :
    ((resetUnreadUpdate chatId u c).id == chatId) = (c.id == chatId) := by
  unfold resetUnreadUpdate
  split <;> rfl

lemma messageCreate_some_inv {db : DB} {d : MessageData} {now : Nat}
    {m : Message} {db1 : DB}
    (h : messageCreate db d now = some (m, db1)) :
    messageValidates d = true ∧
    m = { id := db.nextMessageId, chat := d.chat, sender := d.sender,
          type := d.type, content := d.content, mediaUrl := d.mediaUrl,
          readBy := d.readBy, createdAt := now } ∧
    db1 = { db with
             messages := db.messages ++ [m]
             nextMessageId := db.nextMessageId + 1 } := by
  unfold messageCreate at h
  split at h
  next hv =>
    simp only [Option.some.injEq, Prod.mk.injEq] at h
    obtain ⟨hm, hdb⟩ := h
    refine ⟨hv, hm.symm, ?_⟩
    rw [← hdb, hm]
  next hv => simp at h

lemma sendMessage_created_inv {db : DB} {u : UserId} {cid : ChatId}
    {file : Option UploadedFile} {content : Option String}
    {ioOpt : Option Bool} {now : Nat} {m : Message} {db' : DB}
    (h : sendMessage1 db u cid file content ioOpt now = (.created m, db')
       ∨ sendMessage2 db u cid file content ioOpt now = (.created m, db')) :
    ∃ c db1, findChat db cid = some c ∧ u ∈ c.participants ∧
      messageCreate db (buildMessageData cid u file content) now = some (m, db1) ∧
      db' = { db1 with
               chats := db1.chats.map (incUnreadAndSetLast cid u m.id now) } := by
  rcases h with h | h
  · simp only [sendMessage1] at h
    rcases hc : findChat db cid with _ | c
    · simp only [hc] at h
      simp at h
    · simp only [hc] at h
      by_cases hu : u ∈ c.participants
      · rw [if_pos hu] at h
        rcases hmc : messageCreate db (buildMessageData cid u file content) now
          with _ | ⟨m1, db1⟩
        · simp only [hmc] at h
          simp at h
        · simp only [hmc] at h
          rcases ioOpt with _ | emitOk
          · simp at h
          · cases emitOk
            · simp at h
            · simp only [if_true] at h
              simp only [Prod.mk.injEq, SendResult.created.injEq] at h
              obtain ⟨hm, hdb⟩ := h
              subst hm
              exact ⟨c, db1, rfl, hu, rfl, hdb.symm⟩
      · rw [if_neg hu] at h
        simp at h
  · simp only [sendMessage2] at h
    rcases hc : findChat db cid with _ | c
    · simp only [hc] at h
      simp at h
    · simp only [hc] at h
      by_cases hu : u ∈ c.participants
      · rw [if_pos hu] at h
        by_cases hreq : file = none ∧ (content = none ∨ content = some "")
        · rw [if_pos hreq] at h
          simp at h
        · rw [if_neg hreq] at h
          rcases hmc : messageCreate db (buildMessageData cid u file content) now
            with _ | ⟨m1, db1⟩
          · simp only [hmc] at h
            simp at h
          · simp only [hmc] at h
            rcases ioOpt with _ | emitOk
            · simp only [Prod.mk.injEq, SendResult.created.injEq] at h
              obtain ⟨hm, hdb⟩ := h
              subst hm
              exact ⟨c, db1, rfl, hu, rfl, hdb.symm⟩
            · cases emitOk
              · simp at h
              · simp only [if_true] at h
                simp only [Prod.mk.injEq, SendResult.created.injEq] at h
                obtain ⟨hm, hdb⟩ := h
                subst hm
                exact ⟨c, db1, rfl, hu, rfl, hdb.symm⟩
      · rw [if_neg hu] at h
        simp at h

lemma countFor_foldl_inc (cid : ChatId) (p : UserId)
    (sends : List (UserId × MessageId × Nat)) (c : Chat)
    (hid : (c.id == cid) = true)
    (hp : (c.unreadCounts.any (fun e => e.user == p)) = true) :
    countFor p ((sends.foldl
        (fun ch t => incUnreadAndSetLast cid t.1 t.2.1 t.2.2 ch) c).unreadCounts)
      = countFor p c.unreadCounts + (sends.filter (fun t => t.1 != p)).length := by
  induction sends generalizing c with
  | nil => simp
  | cons t ts ih =>
    have hinc : incUnreadAndSetLast cid t.1 t.2.1 t.2.2 c
        = { c with
              lastMessage := some t.2.1
              updatedAt := t.2.2
              unreadCounts := bumpCounts t.1 c.unreadCounts } := by
      unfold incUnreadAndSetLast
      rw [if_pos hid]
    have hid' : (({ c with
        lastMessage := some t.2.1
        updatedAt := t.2.2
        unreadCounts := bumpCounts t.1 c.unreadCounts } : Chat).id == cid) = true := hid
    have hp' : ((bumpCounts t.1 c.unreadCounts).any (fun e => e.user == p)) = true := by
      rw [bumpCounts_any]
      exact hp
    rw [List.foldl_cons, hinc, ih _ hid' hp']
    by_cases htp : t.1 = p
    · have hb : (t.1 != p) = false := by simpa using htp
      rw [htp]
      rw [countFor_bumpCounts_self]
      simp [List.filter_cons, hb]
    · have hb : (t.1 != p) = true := by simpa using htp
      rw [countFor_bumpCounts_ne t.1 p _ (fun he => htp he.symm) hp]
      simp only [List.filter_cons, hb, if_true, List.length_cons]
      omega

/-- A small concrete state used by the witnesses below: chat 10 between
users 1 and 2, both counters 0, no messages yet. -/
def exChat : Chat :=
  { id := 10
    participants := [1, 2]
    lastMessage := none
    unreadCounts := [⟨1, 0⟩, ⟨2, 0⟩]
    createdAt := 0
    updatedAt := 0 }

def exDb : DB := { chats := [exChat], messages := [], nextMessageId := 100 }

/-- The message a send of "hi" by user 1 into `exDb` persists. -/
def exMsg : Message :=
  { id := 100
    chat := 10
    sender := 1
    type := .text
    content := some "hi"
    mediaUrl := none
    readBy := [1]
    createdAt := 5 }

/-- The state after that send. -/
def exDb2 : DB := (sendMessage2 exDb 1 10 none (some "hi") (some true) 5).2

/-- The chat document after that send. -/
def exChat2 : Chat :=
  { id := 10
    participants := [1, 2]
    lastMessage := some 100
    unreadCounts := [⟨1, 0⟩, ⟨2, 1⟩]
    createdAt := 0
    updatedAt := 5 }

/-! ### Claim theorems -/

/-- C1: for every successful send by sender `u`, the unread counter of
every participant `p` with an `unreadCounts` entry and `p ≠ u` increases
by exactly 1 while the sender's own counter is unchanged; and since each
such update is one atomic document update, any interleaving of N
concurrent sends — modelled as folding the atomic counter update in any
order — raises the counter by exactly the number of those sends whose
sender differs from `p`, so no increment is lost. -/
theorem send_increments_unread_exactly_one
    (db : DB) (u p : UserId) (cid : ChatId) (file : Option UploadedFile)
    (content : Option String) (ioOpt : Option Bool) (now : Nat)
    (m : Message) (db' : DB) (c c' : Chat)
    (h : sendMessage1 db u cid file content ioOpt now = (.created m, db')
       ∨ sendMessage2 db u cid file content ioOpt now = (.created m, db'))
    (hc : findChat db cid = some c) (hc' : findChat db' cid = some c')
    (hp : (c.unreadCounts.any (fun e => e.user == p)) = true) :
    (p ≠ u → countFor p c'.unreadCounts = countFor p c.unreadCounts + 1)
    ∧ (p = u → countFor p c'.unreadCounts = countFor p c.unreadCounts)
    ∧ ∀ sends : List (UserId × MessageId × Nat),
        countFor p ((sends.foldl
            (fun ch t => incUnreadAndSetLast cid t.1 t.2.1 t.2.2 ch) c).unreadCounts)
          = countFor p c.unreadCounts
            + (sends.filter (fun t => t.1 != p)).length := by
  obtain ⟨c0, db1, hc0, hu, hmc, hdb'⟩ := sendMessage_created_inv h
  obtain ⟨hv, hm, hdb1⟩ := messageCreate_some_inv hmc
  have hcc0 : c0 = c := by
    rw [hc0] at hc
    exact Option.some.inj hc
  subst hcc0
  have hdb1chats : db1.chats = db.chats := by rw [hdb1]
  have hfind1 : findChat db1 cid = some c0 := by
    unfold findChat
    rw [hdb1chats]
    exact hc0
  have hmap : findChat db' cid
      = (findChat db1 cid).map (incUnreadAndSetLast cid u m.id now) := by
    rw [hdb']
    unfold findChat
    exact find?_map_comm _ _ (fun a => incUnreadAndSetLast_id cid u m.id now a) _
  rw [hmap, hfind1] at hc'
  simp only [Option.map_some'] at hc'
  have hid : (c0.id == cid) = true := by
    have h0 : List.find? (fun c => c.id == cid) db.chats = some c0 := hc0
    simpa using List.find?_some h0
  have hc'eq : c' = { c0 with
      lastMessage := some m.id
      updatedAt := now
      unreadCounts := bumpCounts u c0.unreadCounts } := by
    have : incUnreadAndSetLast cid u m.id now c0
        = { c0 with
              lastMessage := some m.id
              updatedAt := now
              unreadCounts := bumpCounts u c0.unreadCounts } := by
      unfold incUnreadAndSetLast
      rw [if_pos hid]
    rw [← this]
    exact (Option.some.inj hc').symm
  refine ⟨?_, ?_, ?_⟩
  · intro hpu
    rw [hc'eq]
    exact countFor_bumpCounts_ne u p _ hpu hp
  · intro hpu
    subst hpu
    rw [hc'eq]
    exact countFor_bumpCounts_self p _
  · intro sends
    exact countFor_foldl_inc cid p sends c0 hid hp

theorem send_increments_unread_exactly_one_witness :
    ((2 : UserId) ≠ 1 →
        countFor 2 exChat2.unreadCounts = countFor 2 exChat.unreadCounts + 1)
    ∧ ((2 : UserId) = 1 →
        countFor 2 exChat2.unreadCounts = countFor 2 exChat.unreadCounts)
    ∧ ∀ sends : List (UserId × MessageId × Nat),
        countFor 2 ((sends.foldl
            (fun ch t => incUnreadAndSetLast 10 t.1 t.2.1 t.2.2 ch) exChat).unreadCounts)
          = countFor 2 exChat.unreadCounts
            + (sends.filter (fun t => t.1 != 2)).length :=
  send_increments_unread_exactly_one exDb 1 2 10 none (some "hi")
    (some true) 5 exMsg exDb2 exChat exChat2
    (Or.inr (by decide)) (by decide) (by decide) (by decide)

/-- C2: every successful send persists exactly one message, whose sender
is the caller and whose `readBy` set starts as exactly the singleton of
the sender, and after the chat update the conversation's `lastMessage`
is that message's id. -/
theorem send_persists_exactly_one_message
    (db : DB) (u : UserId) (cid : ChatId) (file : Option UploadedFile)
    (content : Option String) (ioOpt : Option Bool) (now : Nat)
    (m : Message) (db' : DB)
    (h : sendMessage1 db u cid file content ioOpt now = (.created m, db')
       ∨ sendMessage2 db u cid file content ioOpt now = (.created m, db')) :
    db'.messages = db.messages ++ [m]
    ∧ m.sender = u
    ∧ m.readBy = [u]
    ∧ ∀ c', findChat db' cid = some c' → c'.lastMessage = some m.id := by
  obtain ⟨c, db1, hc, hu, hmc, hdb'⟩ := sendMessage_created_inv h
  obtain ⟨hv, hm, hdb1⟩ := messageCreate_some_inv hmc
  refine ⟨?_, ?_, ?_, ?_⟩
  · rw [hdb', hdb1]
  · rw [hm]
    rfl
  · rw [hm]
    rfl
  · intro c' hc'
    rw [hdb'] at hc'
    have hmap : findChat { db1 with
          chats := db1.chats.map (incUnreadAndSetLast cid u m.id now) } cid
        = (findChat db1 cid).map (incUnreadAndSetLast cid u m.id now) := by
      unfold findChat
      exact find?_map_comm _ _ (fun a => incUnreadAndSetLast_id cid u m.id now a) _
    rw [hmap] at hc'
    rcases hfc : findChat db1 cid with _ | c0
    · rw [hfc] at hc'
      simp at hc'
    · rw [hfc] at hc'
      simp only [Option.map_some', Option.some.injEq] at hc'
      have hid : (c0.id == cid) = true := by
        have h0 : List.find? (fun c => c.id == cid) db1.chats = some c0 := hfc
        simpa using List.find?_some h0
      rw [← hc']
      unfold incUnreadAndSetLast
      rw [if_pos hid]

theorem send_persists_exactly_one_message_witness :
    exDb2.messages = exDb.messages ++ [exMsg]
    ∧ exMsg.sender = 1
    ∧ exMsg.readBy = [1]
    ∧ ∀ c', findChat exDb2 10 = some c' → c'.lastMessage = some exMsg.id :=
  send_persists_exactly_one_message exDb 1 10 none (some "hi") (some true) 5
    exMsg exDb2 (Or.inr (by decide))

/-- C3: a send supplying neither text content nor a media file fails —
variant 2 answers the explicit 400 "Message content is required", and
variant 1 fails through the Message schema validation — and in both
variants the state is unchanged, so no message is persisted. -/
theorem send_without_content_or_media_rejected
    (db : DB) (u : UserId) (cid : ChatId) (content : Option String)
    (ioOpt : Option Bool) (now : Nat) (c : Chat)
    (hc : findChat db cid = some c) (hu : u ∈ c.participants)
    (hcontent : content = none ∨ content = some "") :
    sendMessage2 db u cid none content ioOpt now = (.contentRequired, db)
    ∧ sendMessage1 db u cid none content ioOpt now = (.error, db) := by
  have hval : messageValidates (buildMessageData cid u none content) = false := by
    rcases hcontent with h | h <;> subst h <;> rfl
  have hnone : messageCreate db (buildMessageData cid u none content) now = none := by
    unfold messageCreate
    rw [hval]
    simp
  constructor
  · rcases hcontent with h | h <;> subst h <;> simp [sendMessage2, hc, hu]
  · simp only [sendMessage1, hc]
    rw [if_pos hu]
    simp only [hnone]

theorem send_without_content_or_media_rejected_witness :
    sendMessage2 exDb 1 10 none none (some true) 5 = (.contentRequired, exDb)
    ∧ sendMessage1 exDb 1 10 none none (some true) 5 = (.error, exDb) :=
  send_without_content_or_media_rejected exDb 1 10 none (some true) 5 exChat
    (by decide) (by decide) (Or.inl rfl)

/-- C4: a send attempt by a user who is not a participant of the target
chat is answered with 403 and returns the state unchanged in both
variants: no message is persisted, no counter changes and `lastMessage`
is untouched. -/
theorem send_by_non_participant_rejected
    (db : DB) (u : UserId) (cid : ChatId) (file : Option UploadedFile)
    (content : Option String) (ioOpt : Option Bool) (now : Nat) (c : Chat)
    (hc : findChat db cid = some c) (hu : u ∉ c.participants) :
    sendMessage1 db u cid file content ioOpt now = (.forbidden, db)
    ∧ sendMessage2 db u cid file content ioOpt now = (.forbidden, db) := by
  constructor
  · simp only [sendMessage1, hc]
    rw [if_neg hu]
  · simp only [sendMessage2, hc]
    rw [if_neg hu]

theorem send_by_non_participant_rejected_witness :
    sendMessage1 exDb 3 10 none (some "hi") (some true) 5 = (.forbidden, exDb)
    ∧ sendMessage2 exDb 3 10 none (some "hi") (some true) 5 = (.forbidden, exDb) :=
  send_by_non_participant_rejected exDb 3 10 none (some "hi") (some true) 5
    exChat (by decide) (by decide)

lemma markReadUpdate_idem (chatId : ChatId) (reader : UserId) (m : Message) :
    markReadUpdate chatId reader (markReadUpdate chatId reader m)
      = markReadUpdate chatId reader m := by
  unfold markReadUpdate
  by_cases h : m.chat = chatId ∧ m.sender ≠ reader ∧ reader ∉ m.readBy
  · rw [if_pos h]
    rw [if_neg]
    rintro ⟨-, -, h3⟩
    exact h3 (List.mem_append_right _ (List.mem_singleton.mpr rfl))
  · rw [if_neg h, if_neg h]

lemma markReadUpdate_covers (cid : ChatId) (u : UserId) (m : Message)
    (h1 : (markReadUpdate cid u m).chat = cid)
    (h2 : (markReadUpdate cid u m).sender ≠ u) :
    u ∈ (markReadUpdate cid u m).readBy := by
  unfold markReadUpdate at *
  by_cases h : m.chat = cid ∧ m.sender ≠ u ∧ u ∉ m.readBy
  · rw [if_pos h] at *
    exact List.mem_append_right _ (List.mem_singleton.mpr rfl)
  · rw [if_neg h] at *
    by_contra hcon
    exact h ⟨h1, h2, hcon⟩

lemma countFor_resetUnreadUpdate_self (cid : ChatId) (u : UserId) (c : Chat)
    (hid : c.id = cid) :
    countFor u (resetUnreadUpdate cid u c).unreadCounts = 0 := by
  unfold resetUnreadUpdate
  by_cases hany : (c.unreadCounts.any (fun e => e.user == u)) = true
  · rw [if_pos ⟨hid, hany⟩]
    exact countFor_resetFirstCount_self u _
  · rw [if_neg (fun hcon => hany hcon.2)]
    unfold countFor
    have hnone : c.unreadCounts.find? (fun e => e.user == u) = none := by
      rw [List.find?_eq_none]
      intro x hx hpx
      exact hany (List.any_eq_true.mpr ⟨x, hx, hpx⟩)
    rw [hnone]

lemma countFor_resetUnreadUpdate_ne (cid : ChatId) (u p : UserId) (c : Chat)
    (hpu : p ≠ u) :
    countFor p (resetUnreadUpdate cid u c).unreadCounts
      = countFor p c.unreadCounts := by
  unfold resetUnreadUpdate
  split
  · exact countFor_resetFirstCount_ne u p _ hpu
  · rfl

/-- C5: a history fetch by participant `u` leaves the state so that `u`
belongs to the `readBy` set of every message of the conversation whose
sender is not `u`, `u`'s unread counter for the conversation reads 0, and
the unread counters of every other user are unchanged. -/
theorem getMessages_resets_and_marks_read
    (db : DB) (u : UserId) (cid : ChatId) (c : Chat) (res : GetResult) (db' : DB)
    (h : getMessages db u cid = (res, db'))
    (hc : findChat db cid = some c) (hu : u ∈ c.participants) :
    (∀ m' ∈ db'.messages, m'.chat = cid → m'.sender ≠ u → u ∈ m'.readBy)
    ∧ ∃ c', findChat db' cid = some c'
        ∧ countFor u c'.unreadCounts = 0
        ∧ ∀ p, p ≠ u → countFor p c'.unreadCounts = countFor p c.unreadCounts := by
  unfold getMessages at h
  simp only [hc] at h
  rw [if_pos hu] at h
  simp only [Prod.mk.injEq] at h
  obtain ⟨-, hdb'⟩ := h
  constructor
  · intro m' hm' h1 h2
    rw [← hdb'] at hm'
    simp only [markReadByOthers, List.mem_map] at hm'
    obtain ⟨m0, -, hm0⟩ := hm'
    subst hm0
    exact markReadUpdate_covers cid u m0 h1 h2
  · have hidb : c.id = cid := by
      have h0 : List.find? (fun x => x.id == cid) db.chats = some c := hc
      simpa using List.find?_some h0
    have hmap : findChat db' cid
        = (findChat db cid).map (resetUnreadUpdate cid u) := by
      rw [← hdb']
      unfold findChat
      exact find?_map_comm _ _ (fun a => resetUnreadUpdate_id cid u a) _
    refine ⟨resetUnreadUpdate cid u c, ?_, ?_, ?_⟩
    · rw [hmap, hc]
      rfl
    · exact countFor_resetUnreadUpdate_self cid u c hidb
    · intro p hpu
      exact countFor_resetUnreadUpdate_ne cid u p c hpu

theorem getMessages_resets_and_marks_read_witness :
    (∀ m' ∈ (getMessages exDb2 2 10).2.messages,
        m'.chat = 10 → m'.sender ≠ 2 → 2 ∈ m'.readBy)
    ∧ ∃ c', findChat (getMessages exDb2 2 10).2 10 = some c'
        ∧ countFor 2 c'.unreadCounts = 0
        ∧ ∀ p, p ≠ 2 →
            countFor p c'.unreadCounts = countFor p exChat2.unreadCounts :=
  getMessages_resets_and_marks_read exDb2 2 10 exChat2
    (getMessages exDb2 2 10).1 (getMessages exDb2 2 10).2
    rfl (by decide) (by decide)

/-- C6: `markReadByOthers` is idempotent — applying the mark-read update
twice in a row yields exactly the same message collection, hence the same
`readBy` sets, as applying it once. -/
theorem markReadByOthers_idempotent (chatId : ChatId) (reader : UserId)
    (msgs : List Message) :
    markReadByOthers chatId reader (markReadByOthers chatId reader msgs)
      = markReadByOthers chatId reader msgs := by
  induction msgs with
  | nil => rfl
  | cons m l ih =>
    unfold markReadByOthers at ih ⊢
    simp only [List.map_cons]
    rw [markReadUpdate_idem]
    rw [show (List.map (markReadUpdate chatId reader)
        (List.map (markReadUpdate chatId reader) l))
      = List.map (markReadUpdate chatId reader) l from ih]

lemma countFor_eq_zero_of_absent (u : UserId) (l : List UnreadEntry)
    (h : ∀ e ∈ l, e.user ≠ u) : countFor u l = 0 := by
  unfold countFor
  have hnone : l.find? (fun e => e.user == u) = none := by
    rw [List.find?_eq_none]
    intro x hx hb
    exact h x hx (by simpa using hb)
  rw [hnone]

instance : IsTotal Chat (fun a b => b.updatedAt ≤ a.updatedAt) :=
  ⟨fun a b => le_total b.updatedAt a.updatedAt⟩

instance : IsTrans Chat (fun a b => b.updatedAt ≤ a.updatedAt) :=
  ⟨fun _ _ _ hab hbc => le_trans hbc hab⟩

/-- C9: listing a user's chats yields them sorted by `updatedAt`
descending; the listed chats are exactly the stored chats that the user
participates in; each item carries the caller's unread count as stored in
the chat document, and that count is 0 whenever the chat has no
`unreadCounts` entry for the caller. -/
theorem listChats_sorted_and_unread (db : DB) (u : UserId) :
    List.Pairwise (fun a b => b.chat.updatedAt ≤ a.chat.updatedAt) (listChats db u)
    ∧ List.Perm ((listChats db u).map (fun x => x.chat))
        (db.chats.filter (fun c => u ∈ c.participants))
    ∧ (∀ x ∈ listChats db u, x.unreadCount = countFor u x.chat.unreadCounts)
    ∧ ∀ x ∈ listChats db u,
        (∀ e ∈ x.chat.unreadCounts, e.user ≠ u) → x.unreadCount = 0 := by
  refine ⟨?_, ?_, ?_, ?_⟩
  · unfold listChats
    rw [List.pairwise_map]
    exact List.sorted_insertionSort (fun a b : Chat => b.updatedAt ≤ a.updatedAt)
      (db.chats.filter (fun c => u ∈ c.participants))
  · unfold listChats
    rw [List.map_map]
    have hmap : ((fun x : ChatListItem => x.chat) ∘
        (fun c : Chat => ({ chat := c, unreadCount := countFor u c.unreadCounts } : ChatListItem)))
      = fun c : Chat => c := rfl
    rw [hmap, List.map_id']
    exact List.perm_insertionSort _ _
  · intro x hx
    unfold listChats at hx
    simp only [List.mem_map] at hx
    obtain ⟨c, -, hc⟩ := hx
    rw [← hc]
  · intro x hx habs
    unfold listChats at hx
    simp only [List.mem_map] at hx
    obtain ⟨c, -, hc⟩ := hx
    rw [← hc]
    rw [← hc] at habs
    exact countFor_eq_zero_of_absent u c.unreadCounts habs

theorem listChats_sorted_and_unread_witness :
    List.Pairwise (fun a b => b.chat.updatedAt ≤ a.chat.updatedAt) (listChats exDb 1)
    ∧ List.Perm ((listChats exDb 1).map (fun x => x.chat))
        (exDb.chats.filter (fun c => 1 ∈ c.participants))
    ∧ (∀ x ∈ listChats exDb 1, x.unreadCount = countFor 1 x.chat.unreadCounts)
    ∧ ∀ x ∈ listChats exDb 1,
        (∀ e ∈ x.chat.unreadCounts, e.user ≠ 1) → x.unreadCount = 0 :=
  listChats_sorted_and_unread exDb 1

/-- The user documents of the search counterexample: the requesting user
is named "alice", the only other participant "bob". -/
def exUsers : List User :=
  [{ id := 1, username := "alice", email := "alice@example.com" },
   { id := 2, username := "bob", email := "bob@example.com" }]

/-- C7 counterexample: user 1, whose own username is "alice", searches
for "alice".  The only other participant of chat 10 is "bob", who does
not match the query, yet the chat is returned — the populate match also
tests the requesting user's own document, so the claim that only *other*
participants are considered is false on the code. -/
theorem searchChats_matches_self :
    searchChats exDb exUsers 1 "alice" = [exChat]
    ∧ ∀ p ∈ exChat.participants, p ≠ 1 →
        participantMatched exUsers "alice" p = false := by
  constructor
  · decide
  · decide

/-- C7 (amended): a chat is returned by the search exactly when it is a
stored chat of the requesting user in which at least one participant —
possibly the requesting user themselves — resolves to a user document
whose username or email matches the query case-insensitively. -/
theorem searchChats_mem_iff (db : DB) (users : List User) (u : UserId)
    (q : String) (c : Chat) :
    c ∈ searchChats db users u q
      ↔ c ∈ db.chats ∧ u ∈ c.participants
        ∧ (c.participants.any (participantMatched users q)) = true := by
  unfold searchChats
  rw [List.mem_filter]
  constructor
  · rintro ⟨hmem, hmatch⟩
    rw [(List.perm_insertionSort _ _).mem_iff, List.mem_filter] at hmem
    exact ⟨hmem.1, by simpa using hmem.2, hmatch⟩
  · rintro ⟨h1, h2, h3⟩
    refine ⟨?_, h3⟩
    rw [(List.perm_insertionSort _ _).mem_iff, List.mem_filter]
    exact ⟨h1, by simpa using h2⟩

theorem searchChats_mem_iff_witness :
    exChat ∈ searchChats exDb exUsers 1 "alice"
      ↔ exChat ∈ exDb.chats ∧ 1 ∈ exChat.participants
        ∧ (exChat.participants.any (participantMatched exUsers "alice")) = true :=
  searchChats_mem_iff exDb exUsers 1 "alice" exChat

/-- C8 counterexample: with no io handle registered, variant 1's send
persists the message and its chat update, then the unguarded publish
step throws and the handler answers an error status — a failure of the
realtime publish step does fail the send even though the message was
persisted. -/
theorem sendMessage1_publish_failure_fails_send :
    (sendMessage1 exDb 1 10 none (some "hi") none 5).1 = SendResult.error
    ∧ (sendMessage1 exDb 1 10 none (some "hi") none 5).2.messages = [exMsg] := by
  constructor
  · decide
  · decide

/-- C8 (amended): once the message is persisted, a throwing publish step
is not swallowed — both variants answer an error status, though the
persisted message is kept (not rolled back) and remains in the message
store; only variant 2 tolerates an *absent* realtime transport, skipping
the publish and returning success with the persisted message. -/
theorem send_publish_error_behavior
    (db : DB) (u : UserId) (cid : ChatId) (file : Option UploadedFile)
    (content : Option String) (now : Nat) (c : Chat) (m : Message) (db1 : DB)
    (hc : findChat db cid = some c) (hu : u ∈ c.participants)
    (hmc : messageCreate db (buildMessageData cid u file content) now
      = some (m, db1)) :
    ((sendMessage1 db u cid file content none now).1 = .error
      ∧ m ∈ (sendMessage1 db u cid file content none now).2.messages)
    ∧ ((sendMessage1 db u cid file content (some false) now).1 = .error
      ∧ m ∈ (sendMessage1 db u cid file content (some false) now).2.messages)
    ∧ ((sendMessage2 db u cid file content (some false) now).1 = .error
      ∧ m ∈ (sendMessage2 db u cid file content (some false) now).2.messages)
    ∧ (sendMessage2 db u cid file content none now).1 = .created m := by
  obtain ⟨hv, hm, hdb1⟩ := messageCreate_some_inv hmc
  have hmem : m ∈ db1.messages := by
    rw [hdb1]
    exact List.mem_append_right _ (List.mem_singleton.mpr rfl)
  have hguard : ¬(file = none ∧ (content = none ∨ content = some "")) := by
    rintro ⟨hf, hcon⟩
    subst hf
    rcases hcon with hcon | hcon <;> subst hcon <;>
      simp [buildMessageData, messageValidates] at hv
  refine ⟨⟨?_, ?_⟩, ⟨?_, ?_⟩, ⟨?_, ?_⟩, ?_⟩
  · simp only [sendMessage1, hc]
    rw [if_pos hu]
    simp only [hmc]
  · simp only [sendMessage1, hc]
    rw [if_pos hu]
    simp only [hmc]
    exact hmem
  · simp only [sendMessage1, hc]
    rw [if_pos hu]
    simp only [hmc]
    simp
  · simp only [sendMessage1, hc]
    rw [if_pos hu]
    simp only [hmc]
    simpa using hmem
  · simp only [sendMessage2, hc]
    rw [if_pos hu, if_neg hguard]
    simp only [hmc]
    simp
  · simp only [sendMessage2, hc]
    rw [if_pos hu, if_neg hguard]
    simp only [hmc]
    simpa using hmem
  · simp only [sendMessage2, hc]
    rw [if_pos hu, if_neg hguard]
    simp only [hmc]

theorem send_publish_error_behavior_witness :
    ((sendMessage1 exDb 1 10 none (some "hi") none 5).1 = .error
      ∧ exMsg ∈ (sendMessage1 exDb 1 10 none (some "hi") none 5).2.messages)
    ∧ ((sendMessage1 exDb 1 10 none (some "hi") (some false) 5).1 = .error
      ∧ exMsg ∈ (sendMessage1 exDb 1 10 none (some "hi") (some false) 5).2.messages)
    ∧ ((sendMessage2 exDb 1 10 none (some "hi") (some false) 5).1 = .error
      ∧ exMsg ∈ (sendMessage2 exDb 1 10 none (some "hi") (some false) 5).2.messages)
    ∧ (sendMessage2 exDb 1 10 none (some "hi") none 5).1 = .created exMsg :=
  send_publish_error_behavior exDb 1 10 none (some "hi") 5 exChat exMsg
    { exDb with messages := [exMsg], nextMessageId := 101 }
    (by decide) (by decide) (by decide)

/-- C10: a send that uploads a media file while also supplying text
content persists only the media — the stored message's `mediaUrl` is the
upload path, its `content` is empty, and its kind is `image` exactly when
the file's media type starts with "image/" and `video` otherwise; and by
construction no message data ever carries both a content and a media
reference. -/
theorem send_media_discards_content
    (db : DB) (u : UserId) (cid : ChatId) (fl : UploadedFile) (s : String)
    (ioOpt : Option Bool) (now : Nat) (m : Message) (db' : DB)
    (h : sendMessage1 db u cid (some fl) (some s) ioOpt now = (.created m, db')
       ∨ sendMessage2 db u cid (some fl) (some s) ioOpt now = (.created m, db')) :
    m.mediaUrl = some ("/uploads/" ++ fl.filename)
    ∧ m.content = none
    ∧ m.type = (if strStartsWith fl.mimetype "image/" then .image else .video)
    ∧ ∀ (f' : Option UploadedFile) (c' : Option String),
        ((buildMessageData cid u f' c').content.isSome
          && (buildMessageData cid u f' c').mediaUrl.isSome) = false := by
  obtain ⟨c, db1, hc, hu, hmc, hdb'⟩ := sendMessage_created_inv h
  obtain ⟨hv, hm, hdb1⟩ := messageCreate_some_inv hmc
  refine ⟨?_, ?_, ?_, ?_⟩
  · rw [hm]
    rfl
  · rw [hm]
    rfl
  · rw [hm]
    rfl
  · intro f' c'
    cases f' <;> cases c' <;> rfl

/-- The message persisted by the media-plus-content witness send. -/
def exMsgMedia : Message :=
  { id := 100
    chat := 10
    sender := 1
    type := .image
    content := none
    mediaUrl := some "/uploads/pic.png"
    readBy := [1]
    createdAt := 5 }

theorem send_media_discards_content_witness :
    exMsgMedia.mediaUrl = some ("/uploads/" ++ "pic.png")
    ∧ exMsgMedia.content = none
    ∧ exMsgMedia.type
        = (if strStartsWith "image/png" "image/" then .image else .video)
    ∧ ∀ (f' : Option UploadedFile) (c' : Option String),
        ((buildMessageData 10 1 f' c').content.isSome
          && (buildMessageData 10 1 f' c').mediaUrl.isSome) = false :=
  send_media_discards_content exDb 1 10
    { mimetype := "image/png", filename := "pic.png" } "hello" (some true) 5
    exMsgMedia (sendMessage2 exDb 1 10
      (some { mimetype := "image/png", filename := "pic.png" })
      (some "hello") (some true) 5).2
    (Or.inr (by decide))

end Socila
